import Mathlib

/-! # Verification of the mc2skos record-to-SKOS conversion engine

This file gives a shallow embedding of the core of `mc2skos/mc2skos.py`
(the MARC21 Classification to SKOS converter) and proves properties about
it.  The embedding covers:

* the graph-builder `add_record_to_graph` (source lines 42-124), including
  the linked-list ("component chain") encoding of synthesized-number
  components;
* the per-record driver `process_record` (lines 127-144) and the
  per-record loop of `main` (lines 215-222), including their error
  behaviour;
* the output phase of `main` (lines 224-258): the empty-graph guard, the
  turtle subject-sorting key patterns, and the ndjson line writer.

Modelling conventions:

* Python machine state is passed explicitly; `rdflib.Graph` is modelled as
  the ordered list of statements added to it (the spec's append-only
  multiset view); `BNode()` allocation is modelled by a counter.
* `rdflib` node constructors become the `Node` inductive.  A plain Python
  string passed where a node is expected (as happens for non-head chain
  components, source line 114/117) is kept distinct as `Node.pystr`.
* Fallible Python code returns `Except PyError`; an uncaught exception is
  a `PyError` value that the modelled caller does not handle.
* The modules `element.py`, `record.py` and `constants.py` of this
  repository are not part of the examined source.  Where their behaviour
  matters it is modelled from the spec: the field accessor's leader lookup
  becomes the `leader` field (spec section 4.1: first matching text or an
  absence marker), and `ClassificationRecord` normalization is modelled by
  the record already carrying its normalized attribute set (spec
  section 4.2: normalization itself never rejects; sections 3 and 4.2 list
  the attributes).  `record.get_uri` is kept abstract as a function field.
-/

namespace Mc2skos

/-- RDF node, as built by the `rdflib` constructors used in the source.
`pystr` is a raw Python string handed to `graph.add` without being wrapped
in `URIRef` (this happens for non-head component-chain members). -/
inductive Node where
  | uri (s : String)
  | literal (value : String) (lang : Option String) (datatype : Option String)
  | boolLit (b : Bool)
  | bnode (n : Nat)
  | pystr (s : String)
  deriving DecidableEq

/-- The RDF predicates used by `add_record_to_graph`, one constructor per
namespace member referenced in the source. -/
inductive Pred where
  | rdf_type
  | skos_topConceptOf
  | skos_inScheme
  | dct_created
  | dct_modified
  | skos_notationProp
  | skos_prefLabel
  | skos_altLabel
  | skos_broader
  | skos_definition
  | skos_editorialNote
  | skos_scopeNote
  | skos_historyNote
  | owl_deprecated
  | mads_componentList
  | rdf_first
  | rdf_rest
  | wd (key : String)
  deriving DecidableEq

/-- One (subject, predicate, object) statement, the tuple form passed to
`graph.add` in the source. -/
abbrev Statement := Node × Pred × Node

/-- The graph is modelled as the ordered list of statements added to it. -/
abbrev Graph := List Statement

/-- `SKOS.Concept`. -/
def skosConcept : Node := Node.uri "http://www.w3.org/2004/02/skos/core#Concept"

/-- `RDF.nil`, the canonical empty-list marker. -/
def rdfNil : Node := Node.uri "http://www.w3.org/1999/02/22-rdf-syntax-ns#nil"

/-- `XSD.date`. -/
def xsdDate : String := "http://www.w3.org/2001/XMLSchema#date"

/-- A Python `datetime` value, down to days (only `%F` formatting is used). -/
structure PyDate where
  year : Nat
  month : Nat
  day : Nat
  deriving DecidableEq

/-- Zero-pad a numeral to two digits, as `%m` / `%d` do. -/
def pad2 (n : Nat) : String :=
  if n < 10 then "0" ++ toString n else toString n

/-- `strftime("%F")`, i.e. `%Y-%m-%d`. -/
def strftimeF (d : PyDate) : String :=
  toString d.year ++ "-" ++ pad2 d.month ++ "-" ++ pad2 d.day

/-- An index-term entry of `record.altLabel`; the source reads
`label["term"]` from each entry. -/
structure IndexTerm where
  term : String
  deriving DecidableEq

/-- `Constants.TABLE_RECORD` versus an ordinary (schedule) classification
record; spec section 3: `recordType ∈ {Classification, Table}`. -/
inductive RecordType where
  | table
  | classification
  deriving DecidableEq

/-- Modelled from the spec: the normalized record produced by the (unseen)
`record.py` module, together with the leader exposed by the (unseen)
`element.py` field accessor.  Field names follow the attributes the source
reads (`record.uri`, `record.scheme_uris`, ...); `notationValue` stands for
the source's notation attribute (that identifier is reserved in Lean).
`get_uri` models the record's `get_uri(collection="class", object=...)`
method abstractly. -/
structure ClassificationRecord where
  leader : Option String
  uri : Option String
  scheme_uris : List String
  is_top_concept : Bool
  created : Option PyDate
  modified : Option PyDate
  notationValue : Option String
  record_type : RecordType
  prefLabel : Option String
  lang : Option String
  altLabel : List IndexTerm
  broader : List String
  definition : List String
  editorialNote : List String
  scopeNote : List String
  historyNote : List String
  deprecated : Bool
  components : List String
  webDeweyExtras : List (String × String)
  is_public : Bool
  get_uri : String → String

/-- Python truthiness of an optional string: `None` and the empty string are falsy. -/
def pyTruthy : Option String → Bool
  | none => false
  | some s => decide (s ≠ "")

/-- The run's inclusion flags (the `options` dict entries read by
`add_record_to_graph`). -/
structure Options where
  include_indexterms : Bool
  include_notes : Bool
  include_components : Bool
  deriving DecidableEq

/-- Source line 52: `graph.add((record_uri, RDF.type, SKOS.Concept))`. -/
def typeStatements (record_uri : Node) : List Statement :=
  [(record_uri, Pred.rdf_type, skosConcept)]

/-- Source lines 55-59: one `skos:topConceptOf` or `skos:inScheme`
statement per scheme URI. -/
def schemeStatements (record_uri : Node) (record : ClassificationRecord) : List Statement :=
  record.scheme_uris.map (fun scheme_uri =>
    if record.is_top_concept then
      (record_uri, Pred.skos_topConceptOf, Node.uri scheme_uri)
    else
      (record_uri, Pred.skos_inScheme, Node.uri scheme_uri))

/-- Source lines 61-62: `dcterms:created`. -/
def createdStatements (record_uri : Node) (record : ClassificationRecord) : List Statement :=
  match record.created with
  | some d => [(record_uri, Pred.dct_created, Node.literal (strftimeF d) none (some xsdDate))]
  | none => []

/-- Source lines 64-65: `dcterms:modified`. -/
def modifiedStatements (record_uri : Node) (record : ClassificationRecord) : List Statement :=
  match record.modified with
  | some d => [(record_uri, Pred.dct_modified, Node.literal (strftimeF d) none (some xsdDate))]
  | none => []

/-- Source lines 68-72: the classification number, with a "T" prefix for
table records.  The guard is Python truthiness of the notation string. -/
def notationStatements (record_uri : Node) (record : ClassificationRecord) : List Statement :=
  if pyTruthy record.notationValue then
    if record.record_type = RecordType.table then
      [(record_uri, Pred.skos_notationProp,
        Node.literal ("T" ++ record.notationValue.getD "") none none)]
    else
      [(record_uri, Pred.skos_notationProp,
        Node.literal (record.notationValue.getD "") none none)]
  else []

/-- Source lines 75-76: caption as `skos:prefLabel`. -/
def prefLabelStatements (record_uri : Node) (record : ClassificationRecord) : List Statement :=
  if pyTruthy record.prefLabel then
    [(record_uri, Pred.skos_prefLabel,
      Node.literal (record.prefLabel.getD "") record.lang none)]
  else []

/-- Source lines 79-81: index terms as `skos:altLabel`, gated by the
index-terms inclusion flag. -/
def indexTermStatements (record_uri : Node) (record : ClassificationRecord)
    (options : Options) : List Statement :=
  if options.include_indexterms then
    record.altLabel.map (fun label =>
      (record_uri, Pred.skos_altLabel, Node.literal label.term record.lang none))
  else []

/-- Source lines 84-85: `skos:broader`, one statement per parent URI. -/
def broaderStatements (record_uri : Node) (record : ClassificationRecord) : List Statement :=
  record.broader.map (fun parent_uri =>
    (record_uri, Pred.skos_broader, Node.uri parent_uri))

/-- Source lines 88-99: the four note kinds, gated by the notes flag. -/
def noteStatements (record_uri : Node) (record : ClassificationRecord)
    (options : Options) : List Statement :=
  if options.include_notes then
    record.definition.map (fun note =>
      (record_uri, Pred.skos_definition, Node.literal note record.lang none))
    ++ record.editorialNote.map (fun note =>
      (record_uri, Pred.skos_editorialNote, Node.literal note record.lang none))
    ++ record.scopeNote.map (fun note =>
      (record_uri, Pred.skos_scopeNote, Node.literal note record.lang none))
    ++ record.historyNote.map (fun note =>
      (record_uri, Pred.skos_historyNote, Node.literal note record.lang none))
  else []

/-- Source lines 102-103: `owl:deprecated true` when the record is
deprecated. -/
def deprecatedStatements (record_uri : Node) (record : ClassificationRecord) : List Statement :=
  if record.deprecated then [(record_uri, Pred.owl_deprecated, Node.boolLit true)] else []

/-- The `for component in record.components` loop of source lines 113-118:
each remaining component extends the chain through a fresh blank node; the
component value is `record.get_uri(...)` *not* wrapped in `URIRef`.
Returns the statements added by the loop together with the identity of the
final chain node (`b1` after the loop).  The fresh-bnode counter is the
predecessor node's index plus one. -/
def componentChain (getUri : String → String) (b1 : Nat) :
    List String → List Statement × Nat
  | [] => ([], b1)
  | component :: rest =>
    let b2 := b1 + 1
    let r := componentChain getUri b2 rest
    ((Node.bnode b1, Pred.rdf_rest, Node.bnode b2) ::
       (Node.bnode b2, Pred.rdf_first, Node.pystr (getUri component)) :: r.1,
     r.2)

/-- Source lines 106-120: the synthesized-number component chain.
`record.components.pop(0)` removes the head component from the record (the
returned record reflects this mutation); the head's value is wrapped in
`URIRef`, the loop then extends the chain, and the final node's
`rdf:rest` is `RDF.nil`.  Returns (statements, record after mutation,
next free bnode index). -/
def componentStatements (record_uri : Node) (record : ClassificationRecord)
    (options : Options) (bn : Nat) : List Statement × ClassificationRecord × Nat :=
  if options.include_components ∧ record.components.length ≠ 0 then
    match record.components with
    | [] => ([], record, bn)
    | component :: restComponents =>
      let record2 := { record with components := restComponents }
      let component_uri := Node.uri (record.get_uri component)
      let b1 := bn
      let chain := componentChain record.get_uri b1 restComponents
      ((record_uri, Pred.mads_componentList, Node.bnode b1) ::
         (Node.bnode b1, Pred.rdf_first, component_uri) ::
         chain.1 ++ [(Node.bnode chain.2, Pred.rdf_rest, rdfNil)],
       record2, chain.2 + 1)
  else ([], record, bn)

/-- Source lines 123-124: webDewey extras, one statement per dict entry. -/
def webDeweyStatements (record_uri : Node) (record : ClassificationRecord) : List Statement :=
  record.webDeweyExtras.map (fun kv =>
    (record_uri, Pred.wd kv.1, Node.literal kv.2 record.lang none))

/-- Source lines 42-124, `add_record_to_graph(graph, record, options)`:
appends the record's statements to the graph, in source order.  Returns
the grown graph, the record after the call (the components list is
mutated by `pop(0)`), and the next free bnode index. -/
def add_record_to_graph (graph : Graph) (record : ClassificationRecord)
    (options : Options) (bn : Nat) : Graph × ClassificationRecord × Nat :=
  let record_uri := Node.uri (record.uri.getD "")
  let comp := componentStatements record_uri record options bn
  (graph
     ++ typeStatements record_uri
     ++ schemeStatements record_uri record
     ++ createdStatements record_uri record
     ++ modifiedStatements record_uri record
     ++ notationStatements record_uri record
     ++ prefLabelStatements record_uri record
     ++ indexTermStatements record_uri record options
     ++ broaderStatements record_uri record
     ++ noteStatements record_uri record options
     ++ deprecatedStatements record_uri record
     ++ comp.1
     ++ webDeweyStatements record_uri record,
   comp.2.1, comp.2.2)

/-- A Python exception as it crosses the modelled boundaries:
`InvalidRecordError` (raised explicitly by `process_record`) or the
`IndexError` raised by indexing a too-short leader string. -/
inductive PyError where
  | invalidRecord (msg : String)
  | indexError
  deriving DecidableEq

/-- Logging severities used by the modelled code paths. -/
inductive LogLevel where
  | debug
  | info
  | warning
  deriving DecidableEq

/-- One log call. -/
structure LogMsg where
  level : LogLevel
  msg : String
  deriving DecidableEq

/-- Source lines 127-144, `process_record(graph, rec, **kwargs)`.
`rec.text("mx:leader")` is modelled by the record's `leader` field
(spec section 4.1); `leader[6]` raises `IndexError` when the leader is
shorter than 7 characters; a non-"w" marker raises
`InvalidRecordError`; a record with no resolved URI is skipped with a
debug log; a non-public record is skipped silently.  Returns the grown
graph, next bnode index, and emitted log messages. -/
def process_record (graph : Graph) (rec : ClassificationRecord)
    (options : Options) (bn : Nat) :
    Except PyError (Graph × Nat × List LogMsg) :=
  match rec.leader with
  | none => Except.error (PyError.invalidRecord "Record does not have a leader")
  | some leader =>
    match leader.data[6]? with
    | none => Except.error PyError.indexError
    | some c =>
      if c = 'w' then
        if rec.uri = none then
          Except.ok (graph, bn,
            [⟨LogLevel.debug,
              "Ignoring record because: No known concept scheme detected, and no manual URI template given"⟩])
        else if rec.is_public then
          let out := add_record_to_graph graph rec options bn
          Except.ok (out.1, out.2.2, [])
        else
          Except.ok (graph, bn, [])
      else
        Except.error (PyError.invalidRecord "Record is not a Marc21 Classification record")

/-- The per-record loop of `main`, source lines 215-222: only
`InvalidRecordError` is caught (and the record skipped); any other
exception escapes and terminates the run. -/
def mainLoop (options : Options) :
    List ClassificationRecord → Graph → Nat → Except PyError (Graph × Nat)
  | [], graph, bn => Except.ok (graph, bn)
  | r :: rs, graph, bn =>
    match process_record graph r options bn with
    | Except.ok (g, bn2, _) => mainLoop options rs g bn2
    | Except.error (PyError.invalidRecord _) => mainLoop options rs graph bn
    | Except.error e => Except.error e

/-! ## Output phase of `main` (source lines 224-258) -/

/-- A JSON value, the shape of the document returned by the (external,
black-box) `rdflib_jsonld.serializer.from_rdf` graph-to-tree
transformation. -/
inductive JValue where
  | obj (fields : List (String × JValue))
  | arr (items : List JValue)
  | str (s : String)
  | num (n : Int)
  | bool (b : Bool)
  | null

/-- Ordered-insertion sort of object fields by key, modelling
`json.dumps(..., sort_keys=True)`. -/
def insertField (kv : String × JValue) : List (String × JValue) → List (String × JValue)
  | [] => [kv]
  | x :: xs => if kv.1 ≤ x.1 then kv :: x :: xs else x :: insertField kv xs

/-- Sort all fields of an object by key. -/
def sortFields : List (String × JValue) → List (String × JValue)
  | [] => []
  | x :: xs => insertField x (sortFields xs)

/-- Join strings with the default `json.dumps` item separator. -/
def joinComma : List String → String
  | [] => ""
  | [s] => s
  | s :: rest => s ++ ", " ++ joinComma rest

mutual

/-- `json.dumps(value, sort_keys=True)`.  The external `json` module is
modelled structurally (string escaping is not modelled; no string of this
development needs it). -/
def dumps : JValue → String
  | JValue.obj fields => "\x7b" ++ joinComma (dumpFields (sortFields fields)) ++ "\x7d"
  | JValue.arr items => "[" ++ joinComma (dumpItems items) ++ "]"
  | JValue.str s => "\"" ++ s ++ "\""
  | JValue.num n => toString n
  | JValue.bool b => if b then "true" else "false"
  | JValue.null => "null"
termination_by v => sizeOf v
decreasing_by
  all_goals
    (have hins : ∀ (kv : String × JValue) (l : List (String × JValue)),
        sizeOf (insertField kv l) = sizeOf (kv :: l) := by
      intro kv l
      induction l with
      | nil => rfl
      | cons x xs ih =>
        simp only [insertField]
        split
        · rfl
        · simp only [List.cons.sizeOf_spec] at *
          omega
     have hsort : ∀ l : List (String × JValue), sizeOf (sortFields l) = sizeOf l := by
      intro l
      induction l with
      | nil => rfl
      | cons x xs ih =>
        simp only [sortFields, hins, List.cons.sizeOf_spec]
        omega
     simp only [JValue.obj.sizeOf_spec, JValue.arr.sizeOf_spec, hsort]
     omega)

/-- Serialize object fields. -/
def dumpFields : List (String × JValue) → List String
  | [] => []
  | (k, v) :: rest => ("\"" ++ k ++ "\": " ++ dumps v) :: dumpFields rest
termination_by l => sizeOf l
decreasing_by
  all_goals simp only [List.cons.sizeOf_spec, Prod.mk.sizeOf_spec]
  all_goals omega

/-- Serialize array items. -/
def dumpItems : List JValue → List String
  | [] => []
  | v :: rest => dumps v :: dumpItems rest
termination_by l => sizeOf l
decreasing_by
  all_goals simp only [List.cons.sizeOf_spec]
  all_goals omega

end

/-- The fixed published context URI written into every output document
(source lines 249 and 253). -/
def contextURL : String := "https://gbv.github.io/jskos/context.json"

/-- Python dict key lookup: `d[key]` / `key in d` for an object. -/
def getKey : JValue → String → Option JValue
  | JValue.obj fields, key => (fields.find? (fun kv => decide (kv.1 = key))).map (fun kv => kv.2)
  | _, _ => none

/-- Python dict assignment `d[key] = v`: overwrite in place if the key
exists, else append. -/
def setKey (fields : List (String × JValue)) (key : String) (v : JValue) :
    List (String × JValue) :=
  if fields.any (fun kv => decide (kv.1 = key)) then
    fields.map (fun kv => if kv.1 = key then (key, v) else kv)
  else fields ++ [(key, v)]

/-- `doc["@context"]` is set to the published context URL
(identity on non-objects; the transformation only yields objects). -/
def setContext : JValue → JValue
  | JValue.obj fields => JValue.obj (setKey fields "@context" (JValue.str contextURL))
  | v => v

/-- The iterable of source line 252:
`jskos["@graph"] if "@graph" in jskos else [jskos]`. -/
def ndjsonRecords (jskos : JValue) : List JValue :=
  match getKey jskos "@graph" with
  | some (JValue.arr items) => items
  | some v => [v]
  | none => [jskos]

/-- An observable effect of the output phase. -/
inductive Action where
  | logWarn (msg : String)
  | openOutFile (path : String)
  | serializeTurtle
  | writeDoc (doc : JValue)
  | write (s : String)

/-- Source lines 252-255: in ndjson mode each record is written as one
compact JSON line, with the published context URI injected into each
record individually. -/
def ndjsonWrites (jskos : JValue) : List Action :=
  (ndjsonRecords jskos).flatMap (fun record =>
    let record := setContext record
    [Action.write (dumps record), Action.write "\n"])

/-- The output-relevant command-line arguments. -/
structure Args where
  outfile : Option String
  outformat : String

/-- Source lines 224-258: the output phase of `main`.  An empty graph
produces only a warning and the function returns (normal exit, nothing
opened or written); otherwise the output file is opened (unless stdout)
and the selected formatter runs.  The `jskos` argument is the result of
the black-box `from_rdf` transformation (used by the two JSON formats). -/
def mainOutput (graph : Graph) (args : Args) (jskos : JValue) : List Action :=
  if graph.length = 0 then
    [Action.logWarn "RDF result is empty!"]
  else
    (match args.outfile with
     | some f => if f ≠ "" ∧ f ≠ "-" then [Action.openOutFile f] else []
     | none => []) ++
    (if args.outformat = "turtle" then
      [Action.serializeTurtle]
    else if args.outformat = "jskos" then
      [Action.writeDoc (setContext jskos)]
    else if args.outformat = "ndjson" then
      ndjsonWrites jskos
    else [])

/-! ## The turtle subject-ordering key (source lines 237-240)

`main` installs two sorters on the `OrderedTurtleSerializer`:

* `"/([0-9A-Z\-]+)\-\-([0-9.\-;:]+)/e"` with key `"T{g1}--{g2}"` for
  table numbers, and
* `"/([0-9.\-;:]+)/e"` with key `"A" + g1` for plain schedule numbers,

tried in that order against each subject string, first match wins (the
serializer's documented sorter interface; spec section 4.5).  The
Python `re.search` semantics (leftmost start position, greedy groups
with backtracking) are implemented below for exactly these two
patterns. -/

/-- The character class `[0-9A-Z\-]` of the table pattern's first group. -/
def isClass1 (c : Char) : Bool :=
  c.isDigit || (decide ('A' ≤ c) && decide (c ≤ 'Z')) || decide (c = '-')

/-- The character class `[0-9.\-;:]` of the schedule pattern (and the
table pattern's second group). -/
def isClass2 (c : Char) : Bool :=
  c.isDigit || decide (c = '.') || decide (c = '-') || decide (c = ';') || decide (c = ':')

/-- Match `([0-9.\-;:]+)/e` at the given position: the group is the
maximal class-2 run (nothing shorter can be followed by the literal
`/`), which must be non-empty and followed by `/e`. -/
def tryTail2 (rest : List Char) : Option (List Char) :=
  let g2 := rest.takeWhile isClass2
  let rem := rest.dropWhile isClass2
  if g2.isEmpty then none
  else
    match rem with
    | '/' :: 'e' :: _ => some g2
    | _ => none

/-- Backtracking over the first group's length (greedy: longest first),
as the Python engine does for `([0-9A-Z\-]+)\-\-([0-9.\-;:]+)/e`. -/
def findSplit (run : List Char) (rest0 : List Char) : Nat → Option (List Char × List Char)
  | 0 => none
  | k + 1 =>
    let g1 := run.take (k + 1)
    match run.drop (k + 1) ++ rest0 with
    | '-' :: '-' :: tail =>
      match tryTail2 tail with
      | some g2 => some (g1, g2)
      | none => findSplit run rest0 k
    | _ => findSplit run rest0 k

/-- Try the table pattern anchored at the current position (which must be
the literal `/`). -/
def matchTableAt : List Char → Option (List Char × List Char)
  | '/' :: rest =>
    findSplit (rest.takeWhile isClass1) (rest.dropWhile isClass1)
      (rest.takeWhile isClass1).length
  | _ => none

/-- `re.search` for the table pattern: try every start position, left to
right. -/
def searchPattern1 : List Char → Option (List Char × List Char)
  | [] => none
  | c :: rest =>
    match matchTableAt (c :: rest) with
    | some r => some r
    | none => searchPattern1 rest

/-- Try the schedule pattern anchored at the current position. -/
def matchScheduleAt : List Char → Option (List Char)
  | '/' :: rest => tryTail2 rest
  | _ => none

/-- `re.search` for the schedule pattern. -/
def searchPattern2 : List Char → Option (List Char)
  | [] => none
  | c :: rest =>
    match matchScheduleAt (c :: rest) with
    | some r => some r
    | none => searchPattern2 rest

/-- The subject sort key of the turtle output: the first sorter that
matches determines the key; table matches produce `"T{g1}--{g2}"`
(source line 238), schedule matches produce `"A" + g1` (line 239). -/
def sortKeyFor (s : String) : Option String :=
  match searchPattern1 s.data with
  | some (g1, g2) => some ("T" ++ String.mk g1 ++ "--" ++ String.mk g2)
  | none =>
    match searchPattern2 s.data with
    | some g1 => some ("A" ++ String.mk g1)
    | none => none

/-! ## Observation functions on the graph

The statements of the component-chain claims talk about *traversing* the
produced graph: following `rdf:first` / `rdf:rest` links from the head
blank node until the `rdf:nil` terminator.  `lookupObj` finds the object
of the first statement with a given subject and predicate; `chainNodes`
performs the fuelled traversal, returning the visited `(node, first
value)` pairs, and succeeds only if the terminator is reached within the
fuel. -/

/-- The object of the first statement with the given subject and
predicate, if any. -/
def lookupObj : Graph → Node → Pred → Option Node
  | [], _, _ => none
  | t :: rest, s, p =>
    if t.1 = s ∧ t.2.1 = p then some t.2.2 else lookupObj rest s p

/-- Traverse a graph-encoded list: collect `(node, rdf:first object)`
pairs following `rdf:rest` links, succeeding only when `rdf:nil` is
reached within the fuel. -/
def chainNodes (g : Graph) : Nat → Node → Option (List (Node × Node))
  | 0, _ => none
  | fuel + 1, n =>
    match lookupObj g n Pred.rdf_first, lookupObj g n Pred.rdf_rest with
    | some v, some r =>
      if r = rdfNil then some [(n, v)]
      else
        match chainNodes g fuel r with
        | some more => some ((n, v) :: more)
        | none => none
    | _, _ => none

/-- The string carried by a URI-reference node or by a raw Python
string node; the claims compare these against the resolved component
identifiers. -/
def nodeValue : Node → Option String
  | Node.uri s => some s
  | Node.pystr s => some s
  | _ => none

/-- Whether a node is a `URIRef`. -/
def isUriRef : Node → Bool
  | Node.uri _ => true
  | _ => false

/-- The expected `(node, first)` pairs for the chain members built by the
source's `for` loop: component `i` of the remainder list sits on blank
node `k + i` and carries a raw-string value. -/
def chainPairs (getUri : String → String) : List String → Nat → List (Node × Node)
  | [], _ => []
  | c :: rest, k => (Node.bnode k, Node.pystr (getUri c)) :: chainPairs getUri rest (k + 1)

/-- `n` successive blank nodes starting at index `k`. -/
def bnodesFrom (k : Nat) : Nat → List Node
  | 0 => []
  | n + 1 => Node.bnode k :: bnodesFrom (k + 1) n

/-- The statements of source lines 52-103 (everything before the
component chain), in order. -/
def preChainStatements (record_uri : Node) (record : ClassificationRecord)
    (options : Options) : List Statement :=
  typeStatements record_uri
    ++ schemeStatements record_uri record
    ++ createdStatements record_uri record
    ++ modifiedStatements record_uri record
    ++ notationStatements record_uri record
    ++ prefLabelStatements record_uri record
    ++ indexTermStatements record_uri record options
    ++ broaderStatements record_uri record
    ++ noteStatements record_uri record options
    ++ deprecatedStatements record_uri record

/-- The run options used by the concrete witness records below:
index terms and notes off, components on. -/
def exOptions : Options :=
  { include_indexterms := false
    include_notes := false
    include_components := true }

/-- `record.get_uri(collection="class", object=...)` for the concrete
witness records: the Dewey class URI pattern. -/
def exGetUri : String → String :=
  fun comp => "http://dewey.info/class/" ++ comp ++ "/e23/"

/-- A concrete normalized classification record used by witnesses and
counterexamples. -/
def exRecord : ClassificationRecord :=
  { leader := some "00000nw  a2200000n  4500"
    uri := some "http://dewey.info/class/512/e23/"
    scheme_uris := ["http://dewey.info/scheme/edition/e23/"]
    is_top_concept := false
    created := none
    modified := none
    notationValue := some "512"
    record_type := RecordType.classification
    prefLabel := some "Algebra"
    lang := some "en"
    altLabel := []
    broader := []
    definition := []
    editorialNote := []
    scopeNote := []
    historyNote := []
    deprecated := false
    components := ["X", "Y", "Z"]
    webDeweyExtras := []
    is_public := true
    get_uri := exGetUri }

/-- A record whose leader is present but only 6 characters long. -/
def shortLeaderRecord : ClassificationRecord :=
  { exRecord with leader := some "012345" }

/-- A record with a valid classification leader but no resolved URI. -/
def noUriRecord : ClassificationRecord :=
  { exRecord with uri := none }

/-- The concrete record as a table record. -/
def tableRecord : ClassificationRecord :=
  { exRecord with record_type := RecordType.table }

/-- A table record whose notation is present but the empty string. -/
def emptyNotationRecord : ClassificationRecord :=
  { exRecord with
      notationValue := some ""
      record_type := RecordType.table
      components := [] }

/-- A concrete graph-to-tree result with a top-level `@graph` array. -/
def exJskos : JValue :=
  JValue.obj [("@graph", JValue.arr
    [JValue.obj [("uri", JValue.str "http://dewey.info/class/512/e23/")]])]

/-! ### Lemmas about the observation functions -/

theorem lookupObj_append_left {l1 l2 : Graph} {s : Node} {p : Pred}
    (h : ∀ t ∈ l1, ¬(t.1 = s ∧ t.2.1 = p)) :
    lookupObj (l1 ++ l2) s p = lookupObj l2 s p := by
  induction l1 with
  | nil => rfl
  | cons t ts ih =>
    simp only [List.cons_append, lookupObj]
    rw [if_neg (h t (List.mem_cons_self t ts))]
    exact ih (fun x hx => h x (List.mem_cons_of_mem t hx))

theorem lookupObj_cons_hit {t : Statement} {l : Graph} {s : Node} {p : Pred}
    (h1 : t.1 = s) (h2 : t.2.1 = p) :
    lookupObj (t :: l) s p = some t.2.2 := by
  simp only [lookupObj]
  rw [if_pos ⟨h1, h2⟩]

theorem lookupObj_cons_miss {t : Statement} {l : Graph} {s : Node} {p : Pred}
    (h : ¬(t.1 = s ∧ t.2.1 = p)) :
    lookupObj (t :: l) s p = lookupObj l s p := by
  simp only [lookupObj]
  rw [if_neg h]

theorem chainNodes_succ (g : Graph) (fuel : Nat) (n : Node) :
    chainNodes g (fuel + 1) n =
      match lookupObj g n Pred.rdf_first, lookupObj g n Pred.rdf_rest with
      | some v, some r =>
        if r = rdfNil then some [(n, v)]
        else
          match chainNodes g fuel r with
          | some more => some ((n, v) :: more)
          | none => none
      | _, _ => none := rfl

theorem chainPairs_length (getUri : String → String) (l : List String) (k : Nat) :
    (chainPairs getUri l k).length = l.length := by
  induction l generalizing k with
  | nil => rfl
  | cons c rest ih => simp [chainPairs, ih]

theorem chainPairs_map_snd (getUri : String → String) (l : List String) (k : Nat) :
    (chainPairs getUri l k).map Prod.snd = l.map (fun c => Node.pystr (getUri c)) := by
  induction l generalizing k with
  | nil => rfl
  | cons c rest ih => simp [chainPairs, ih]

theorem chainPairs_map_value (getUri : String → String) (l : List String) (k : Nat) :
    (chainPairs getUri l k).map (fun p => nodeValue p.2)
      = l.map (fun c => some (getUri c)) := by
  induction l generalizing k with
  | nil => rfl
  | cons c rest ih =>
    simp only [chainPairs, List.map_cons]
    rw [ih]
    rfl

theorem chainPairs_map_fst (getUri : String → String) (l : List String) (k : Nat) :
    (chainPairs getUri l k).map Prod.fst = bnodesFrom k l.length := by
  induction l generalizing k with
  | nil => rfl
  | cons c rest ih => simp [chainPairs, bnodesFrom, ih]

theorem mem_bnodesFrom {x : Node} {k n : Nat} (h : x ∈ bnodesFrom k n) :
    ∃ j, x = Node.bnode j ∧ k ≤ j ∧ j < k + n := by
  induction n generalizing k with
  | zero => simp [bnodesFrom] at h
  | succ m ih =>
    simp only [bnodesFrom, List.mem_cons] at h
    rcases h with h | h
    · exact ⟨k, h, Nat.le_refl k, by omega⟩
    · obtain ⟨j, hj, hk, hn⟩ := ih h
      exact ⟨j, hj, by omega, by omega⟩

theorem bnodesFrom_nodup (k n : Nat) : (bnodesFrom k n).Nodup := by
  induction n generalizing k with
  | zero => simp [bnodesFrom]
  | succ m ih =>
    refine List.Nodup.cons ?_ (ih (k + 1))
    intro hmem
    obtain ⟨j, hj, hk, _⟩ := mem_bnodesFrom hmem
    cases hj
    omega

/-! ### Correctness of the chain traversal on the built graph -/

theorem lookup_head_first {pre : List Statement} {b : Nat} {v0 : Node} {tail : List Statement}
    (hpre : ∀ t ∈ pre, t.1 ≠ Node.bnode b) :
    lookupObj (pre ++ (Node.bnode b, Pred.rdf_first, v0) :: tail)
      (Node.bnode b) Pred.rdf_first = some v0 := by
  rw [lookupObj_append_left (fun t ht hc => hpre t ht hc.1)]
  exact lookupObj_cons_hit rfl rfl

theorem lookup_head_rest {pre : List Statement} {b : Nat} {v0 r : Node} {tail : List Statement}
    (hpre : ∀ t ∈ pre, t.1 ≠ Node.bnode b) :
    lookupObj (pre ++ (Node.bnode b, Pred.rdf_first, v0) ::
        (Node.bnode b, Pred.rdf_rest, r) :: tail) (Node.bnode b) Pred.rdf_rest = some r := by
  rw [lookupObj_append_left (fun t ht hc => hpre t ht hc.1)]
  rw [lookupObj_cons_miss (by simp)]
  exact lookupObj_cons_hit rfl rfl

/-- Traversing the graph built for a component remainder list `l` from
head node `b` (whose `rdf:first` statement carries `v0`) yields the head
pair followed by exactly the `chainPairs` of `l`, regardless of
surrounding statements whose subjects are not blank nodes of index at
least `b`. -/
theorem chain_traverse (getUri : String → String) :
    ∀ (l : List String) (b : Nat) (v0 : Node) (pre post : List Statement),
      (∀ t ∈ pre, ∀ k, b ≤ k → t.1 ≠ Node.bnode k) →
      (∀ t ∈ post, ∀ k, t.1 ≠ Node.bnode k) →
      chainNodes
        (pre ++ (Node.bnode b, Pred.rdf_first, v0) ::
          ((componentChain getUri b l).1 ++
            (Node.bnode (componentChain getUri b l).2, Pred.rdf_rest, rdfNil) :: post))
        (l.length + 1) (Node.bnode b)
        = some ((Node.bnode b, v0) :: chainPairs getUri l (b + 1)) := by
  intro l
  induction l with
  | nil =>
    intro b v0 pre post hpre _hpost
    have hb : ∀ t ∈ pre, t.1 ≠ Node.bnode b :=
      fun t ht => hpre t ht b (Nat.le_refl b)
    simp only [componentChain, List.nil_append, List.length_nil]
    rw [chainNodes_succ, lookup_head_first hb, lookup_head_rest hb]
    simp [chainPairs]
  | cons c rest ih =>
    intro b v0 pre post hpre hpost
    have hb : ∀ t ∈ pre, t.1 ≠ Node.bnode b :=
      fun t ht => hpre t ht b (Nat.le_refl b)
    simp only [componentChain, List.cons_append, List.length_cons]
    rw [chainNodes_succ, lookup_head_first hb, lookup_head_rest hb]
    have hnil : ¬(Node.bnode (b + 1) = rdfNil) := by simp [rdfNil]
    dsimp only
    rw [if_neg hnil]
    have hG :
        pre ++ (Node.bnode b, Pred.rdf_first, v0) ::
          (Node.bnode b, Pred.rdf_rest, Node.bnode (b + 1)) ::
          (Node.bnode (b + 1), Pred.rdf_first, Node.pystr (getUri c)) ::
          ((componentChain getUri (b + 1) rest).1 ++
            (Node.bnode (componentChain getUri (b + 1) rest).2, Pred.rdf_rest, rdfNil) :: post)
        = (pre ++ [(Node.bnode b, Pred.rdf_first, v0),
            (Node.bnode b, Pred.rdf_rest, Node.bnode (b + 1))]) ++
          (Node.bnode (b + 1), Pred.rdf_first, Node.pystr (getUri c)) ::
          ((componentChain getUri (b + 1) rest).1 ++
            (Node.bnode (componentChain getUri (b + 1) rest).2, Pred.rdf_rest, rdfNil) :: post) := by
      simp
    have hpre' :
        ∀ t ∈ pre ++ [(Node.bnode b, Pred.rdf_first, v0),
            (Node.bnode b, Pred.rdf_rest, Node.bnode (b + 1))],
          ∀ k, b + 1 ≤ k → t.1 ≠ Node.bnode k := by
      intro t ht k hk
      rcases List.mem_append.mp ht with ht' | ht'
      · exact hpre t ht' k (by omega)
      · simp only [List.mem_cons, List.not_mem_nil, or_false] at ht'
        rcases ht' with h | h <;>
          (subst h; intro heq; cases heq; omega)
    have hrec := ih (b + 1) (Node.pystr (getUri c))
      (pre ++ [(Node.bnode b, Pred.rdf_first, v0),
        (Node.bnode b, Pred.rdf_rest, Node.bnode (b + 1))]) post hpre' hpost
    rw [hG, hrec]
    simp [chainPairs]

/-! ### Shapes of the individual statement blocks -/

theorem typeStatements_subj (ru : Node) : ∀ t ∈ typeStatements ru, t.1 = ru := by
  simp [typeStatements]

theorem schemeStatements_subj (ru : Node) (r : ClassificationRecord) :
    ∀ t ∈ schemeStatements ru r, t.1 = ru := by
  intro t ht
  simp only [schemeStatements, List.mem_map] at ht
  obtain ⟨su, _, rfl⟩ := ht
  split <;> rfl

theorem createdStatements_subj (ru : Node) (r : ClassificationRecord) :
    ∀ t ∈ createdStatements ru r, t.1 = ru := by
  intro t ht
  cases hc : r.created with
  | none => simp [createdStatements, hc] at ht
  | some d =>
    simp only [createdStatements, hc, List.mem_singleton] at ht
    subst ht
    rfl

theorem modifiedStatements_subj (ru : Node) (r : ClassificationRecord) :
    ∀ t ∈ modifiedStatements ru r, t.1 = ru := by
  intro t ht
  cases hc : r.modified with
  | none => simp [modifiedStatements, hc] at ht
  | some d =>
    simp only [modifiedStatements, hc, List.mem_singleton] at ht
    subst ht
    rfl

theorem notationStatements_subj (ru : Node) (r : ClassificationRecord) :
    ∀ t ∈ notationStatements ru r, t.1 = ru := by
  intro t ht
  unfold notationStatements at ht
  split at ht
  · split at ht <;>
      (simp only [List.mem_singleton] at ht; subst ht; rfl)
  · simp at ht

theorem prefLabelStatements_subj (ru : Node) (r : ClassificationRecord) :
    ∀ t ∈ prefLabelStatements ru r, t.1 = ru := by
  intro t ht
  unfold prefLabelStatements at ht
  split at ht
  · simp only [List.mem_singleton] at ht
    subst ht
    rfl
  · simp at ht

theorem indexTermStatements_subj (ru : Node) (r : ClassificationRecord) (o : Options) :
    ∀ t ∈ indexTermStatements ru r o, t.1 = ru := by
  intro t ht
  unfold indexTermStatements at ht
  split at ht
  · simp only [List.mem_map] at ht
    obtain ⟨lab, _, rfl⟩ := ht
    rfl
  · simp at ht

theorem broaderStatements_subj (ru : Node) (r : ClassificationRecord) :
    ∀ t ∈ broaderStatements ru r, t.1 = ru := by
  intro t ht
  simp only [broaderStatements, List.mem_map] at ht
  obtain ⟨p, _, rfl⟩ := ht
  rfl

theorem noteStatements_subj (ru : Node) (r : ClassificationRecord) (o : Options) :
    ∀ t ∈ noteStatements ru r o, t.1 = ru := by
  intro t ht
  unfold noteStatements at ht
  split at ht
  · simp only [List.mem_append, List.mem_map] at ht
    rcases ht with ((⟨n, _, rfl⟩ | ⟨n, _, rfl⟩) | ⟨n, _, rfl⟩) | ⟨n, _, rfl⟩ <;> rfl
  · simp at ht

theorem deprecatedStatements_subj (ru : Node) (r : ClassificationRecord) :
    ∀ t ∈ deprecatedStatements ru r, t.1 = ru := by
  intro t ht
  unfold deprecatedStatements at ht
  split at ht
  · simp only [List.mem_singleton] at ht
    subst ht
    rfl
  · simp at ht

theorem webDeweyStatements_subj (ru : Node) (r : ClassificationRecord) :
    ∀ t ∈ webDeweyStatements ru r, t.1 = ru := by
  intro t ht
  simp only [webDeweyStatements, List.mem_map] at ht
  obtain ⟨kv, _, rfl⟩ := ht
  rfl

theorem preChainStatements_subj (ru : Node) (r : ClassificationRecord) (o : Options) :
    ∀ t ∈ preChainStatements ru r o, t.1 = ru := by
  intro t ht
  simp only [preChainStatements, List.mem_append] at ht
  rcases ht with ((((((((h | h) | h) | h) | h) | h) | h) | h) | h) | h
  · exact typeStatements_subj ru t h
  · exact schemeStatements_subj ru r t h
  · exact createdStatements_subj ru r t h
  · exact modifiedStatements_subj ru r t h
  · exact notationStatements_subj ru r t h
  · exact prefLabelStatements_subj ru r t h
  · exact indexTermStatements_subj ru r o t h
  · exact broaderStatements_subj ru r t h
  · exact noteStatements_subj ru r o t h
  · exact deprecatedStatements_subj ru r t h

/-- The full graph built for a record whose components are `c :: rest`
(with the components flag on) decomposes around the chain head. -/
theorem add_record_decomp (record : ClassificationRecord) (options : Options) (bn : Nat)
    (c : String) (rest : List String)
    (hopt : options.include_components = true)
    (hcomp : record.components = c :: rest) :
    (add_record_to_graph [] record options bn).1
      = (preChainStatements (Node.uri (record.uri.getD "")) record options
          ++ [(Node.uri (record.uri.getD ""), Pred.mads_componentList, Node.bnode bn)])
        ++ (Node.bnode bn, Pred.rdf_first, Node.uri (record.get_uri c)) ::
          ((componentChain record.get_uri bn rest).1 ++
            (Node.bnode (componentChain record.get_uri bn rest).2, Pred.rdf_rest, rdfNil) ::
            webDeweyStatements (Node.uri (record.uri.getD "")) record) := by
  simp only [add_record_to_graph, componentStatements, preChainStatements, hcomp, hopt,
    List.length_cons]
  simp [List.append_assoc]

/-- The chain statements appended for a record with components `c :: rest`
(flag on): the head-of-list statement is present, and traversing the
links yields the head value followed by the `chainPairs` of the rest. -/
theorem add_chain (record : ClassificationRecord) (options : Options) (bn : Nat)
    (c : String) (rest : List String)
    (hopt : options.include_components = true)
    (hcomp : record.components = c :: rest) :
    (Node.uri (record.uri.getD ""), Pred.mads_componentList, Node.bnode bn)
        ∈ (add_record_to_graph [] record options bn).1
    ∧ chainNodes (add_record_to_graph [] record options bn).1
        (rest.length + 1) (Node.bnode bn)
        = some ((Node.bnode bn, Node.uri (record.get_uri c)) ::
            chainPairs record.get_uri rest (bn + 1)) := by
  have hg := add_record_decomp record options bn c rest hopt hcomp
  constructor
  · rw [hg]
    exact List.mem_append_left _ (List.mem_append_right _ (List.mem_singleton.mpr rfl))
  · rw [hg]
    refine chain_traverse record.get_uri rest bn (Node.uri (record.get_uri c)) _ _ ?_ ?_
    · intro t ht k _
      rcases List.mem_append.mp ht with h | h
      · rw [preChainStatements_subj _ record options t h]
        simp
      · simp only [List.mem_singleton] at h
        subst h
        simp
    · intro t ht k
      rw [webDeweyStatements_subj _ record t ht]
      simp

/-! ### Predicates used by each block -/

theorem typeStatements_pred (ru : Node) :
    ∀ t ∈ typeStatements ru, t.2.1 = Pred.rdf_type := by
  simp [typeStatements]

theorem schemeStatements_pred (ru : Node) (r : ClassificationRecord) :
    ∀ t ∈ schemeStatements ru r,
      t.2.1 = Pred.skos_topConceptOf ∨ t.2.1 = Pred.skos_inScheme := by
  intro t ht
  simp only [schemeStatements, List.mem_map] at ht
  obtain ⟨su, _, rfl⟩ := ht
  split
  · exact Or.inl rfl
  · exact Or.inr rfl

theorem createdStatements_pred (ru : Node) (r : ClassificationRecord) :
    ∀ t ∈ createdStatements ru r, t.2.1 = Pred.dct_created := by
  intro t ht
  cases hc : r.created with
  | none => simp [createdStatements, hc] at ht
  | some d =>
    simp only [createdStatements, hc, List.mem_singleton] at ht
    subst ht
    rfl

theorem modifiedStatements_pred (ru : Node) (r : ClassificationRecord) :
    ∀ t ∈ modifiedStatements ru r, t.2.1 = Pred.dct_modified := by
  intro t ht
  cases hc : r.modified with
  | none => simp [modifiedStatements, hc] at ht
  | some d =>
    simp only [modifiedStatements, hc, List.mem_singleton] at ht
    subst ht
    rfl

theorem notationStatements_pred (ru : Node) (r : ClassificationRecord) :
    ∀ t ∈ notationStatements ru r, t.2.1 = Pred.skos_notationProp := by
  intro t ht
  unfold notationStatements at ht
  split at ht
  · split at ht <;>
      (simp only [List.mem_singleton] at ht; subst ht; rfl)
  · simp at ht

theorem prefLabelStatements_pred (ru : Node) (r : ClassificationRecord) :
    ∀ t ∈ prefLabelStatements ru r, t.2.1 = Pred.skos_prefLabel := by
  intro t ht
  unfold prefLabelStatements at ht
  split at ht
  · simp only [List.mem_singleton] at ht
    subst ht
    rfl
  · simp at ht

theorem indexTermStatements_pred (ru : Node) (r : ClassificationRecord) (o : Options) :
    ∀ t ∈ indexTermStatements ru r o, t.2.1 = Pred.skos_altLabel := by
  intro t ht
  unfold indexTermStatements at ht
  split at ht
  · simp only [List.mem_map] at ht
    obtain ⟨lab, _, rfl⟩ := ht
    rfl
  · simp at ht

theorem broaderStatements_pred (ru : Node) (r : ClassificationRecord) :
    ∀ t ∈ broaderStatements ru r, t.2.1 = Pred.skos_broader := by
  intro t ht
  simp only [broaderStatements, List.mem_map] at ht
  obtain ⟨p, _, rfl⟩ := ht
  rfl

theorem noteStatements_pred (ru : Node) (r : ClassificationRecord) (o : Options) :
    ∀ t ∈ noteStatements ru r o,
      t.2.1 = Pred.skos_definition ∨ t.2.1 = Pred.skos_editorialNote
        ∨ t.2.1 = Pred.skos_scopeNote ∨ t.2.1 = Pred.skos_historyNote := by
  intro t ht
  unfold noteStatements at ht
  split at ht
  · simp only [List.mem_append, List.mem_map] at ht
    rcases ht with ((⟨n, _, rfl⟩ | ⟨n, _, rfl⟩) | ⟨n, _, rfl⟩) | ⟨n, _, rfl⟩
    · exact Or.inl rfl
    · exact Or.inr (Or.inl rfl)
    · exact Or.inr (Or.inr (Or.inl rfl))
    · exact Or.inr (Or.inr (Or.inr rfl))
  · simp at ht

theorem deprecatedStatements_pred (ru : Node) (r : ClassificationRecord) :
    ∀ t ∈ deprecatedStatements ru r, t.2.1 = Pred.owl_deprecated := by
  intro t ht
  unfold deprecatedStatements at ht
  split at ht
  · simp only [List.mem_singleton] at ht
    subst ht
    rfl
  · simp at ht

theorem componentChain_pred (g : String → String) :
    ∀ (l : List String) (b : Nat), ∀ t ∈ (componentChain g b l).1,
      t.2.1 = Pred.rdf_first ∨ t.2.1 = Pred.rdf_rest := by
  intro l
  induction l with
  | nil => intro b t ht; simp [componentChain] at ht
  | cons c rest ih =>
    intro b t ht
    simp only [componentChain, List.mem_cons] at ht
    rcases ht with h | h | h
    · subst h; exact Or.inr rfl
    · subst h; exact Or.inl rfl
    · exact ih (b + 1) t h

theorem componentStatements_pred (ru : Node) (r : ClassificationRecord)
    (o : Options) (bn : Nat) :
    ∀ t ∈ (componentStatements ru r o bn).1,
      t.2.1 = Pred.mads_componentList ∨ t.2.1 = Pred.rdf_first ∨ t.2.1 = Pred.rdf_rest := by
  intro t ht
  unfold componentStatements at ht
  split at ht
  · split at ht
    · simp at ht
    · simp only [List.mem_cons, List.mem_append, List.mem_singleton] at ht
      rcases ht with (h | h | h) | (h | h)
      · subst h; exact Or.inl rfl
      · subst h; exact Or.inr (Or.inl rfl)
      · rcases componentChain_pred r.get_uri _ _ t h with h' | h'
        · exact Or.inr (Or.inl h')
        · exact Or.inr (Or.inr h')
      · subst h; exact Or.inr (Or.inr rfl)
      · simp at h
  · simp at ht

theorem webDeweyStatements_pred (ru : Node) (r : ClassificationRecord) :
    ∀ t ∈ webDeweyStatements ru r, ∃ k, t.2.1 = Pred.wd k := by
  intro t ht
  simp only [webDeweyStatements, List.mem_map] at ht
  obtain ⟨kv, _, rfl⟩ := ht
  exact ⟨kv.1, rfl⟩

/-- Filtering by a statement predicate that is false on every element
gives the empty list. -/
theorem filter_stmt_nil {p : Statement → Bool} {B : List Statement}
    (h : ∀ t ∈ B, p t = false) : B.filter p = [] := by
  induction B with
  | nil => rfl
  | cons t ts ih =>
    rw [List.filter_cons, h t (List.mem_cons_self t ts)]
    exact ih (fun x hx => h x (List.mem_cons_of_mem t hx))

/-- Filtering by a statement predicate that is true on every element
keeps the list. -/
theorem filter_stmt_all {p : Statement → Bool} {B : List Statement}
    (h : ∀ t ∈ B, p t = true) : B.filter p = B := by
  induction B with
  | nil => rfl
  | cons t ts ih =>
    rw [List.filter_cons, h t (List.mem_cons_self t ts)]
    simp only [if_true]
    rw [ih (fun x hx => h x (List.mem_cons_of_mem t hx))]

/-- The graph built for a record splits into the pre-chain block, the
component block and the webDewey block. -/
theorem add_record_split (record : ClassificationRecord) (options : Options) (bn : Nat) :
    (add_record_to_graph [] record options bn).1
      = preChainStatements (Node.uri (record.uri.getD "")) record options
        ++ (componentStatements (Node.uri (record.uri.getD "")) record options bn).1
        ++ webDeweyStatements (Node.uri (record.uri.getD "")) record := by
  simp [add_record_to_graph, preChainStatements, List.append_assoc]

/-! ## The claims -/

/-- C1: for every record with the include-components flag set and a
non-empty ordered component sequence, `add_record_to_graph` appends a
component chain: the `mads:componentList` statement points at the head
blank node, and traversing the `rdf:first`/`rdf:rest` links with fuel
equal to the number of components succeeds — i.e. the `rdf:nil`
empty-list marker terminates the final node's `rest` at exactly that
depth — visiting exactly `n` pairwise-distinct anonymous (blank) nodes
whose `first` values, in traversal order, equal the component sequence
resolved through `record.get_uri`.  A single-component list
(`rest = []`) is an instance and yields exactly one anonymous node. -/
theorem C1_component_chain (record : ClassificationRecord) (options : Options)
    (bn : Nat) (c : String) (rest : List String)
    (hopt : options.include_components = true)
    (hcomp : record.components = c :: rest) :
    ∃ pairs : List (Node × Node),
      (Node.uri (record.uri.getD ""), Pred.mads_componentList, Node.bnode bn)
          ∈ (add_record_to_graph [] record options bn).1
      ∧ chainNodes (add_record_to_graph [] record options bn).1
          (c :: rest).length (Node.bnode bn) = some pairs
      ∧ pairs.length = (c :: rest).length
      ∧ pairs.map (fun p => nodeValue p.2)
          = (c :: rest).map (fun comp => some (record.get_uri comp))
      ∧ (∀ p ∈ pairs, ∃ j, p.1 = Node.bnode j)
      ∧ (pairs.map Prod.fst).Nodup := by
  obtain ⟨hmem, htrav⟩ := add_chain record options bn c rest hopt hcomp
  refine ⟨(Node.bnode bn, Node.uri (record.get_uri c)) ::
      chainPairs record.get_uri rest (bn + 1), hmem, ?_, ?_, ?_, ?_, ?_⟩
  · simpa [List.length_cons] using htrav
  · simp [chainPairs_length]
  · simp only [List.map_cons]
    rw [chainPairs_map_value]
    rfl
  · intro p hp
    rcases List.mem_cons.mp hp with h | h
    · exact ⟨bn, by rw [h]⟩
    · have hm : p.1 ∈ bnodesFrom (bn + 1) rest.length := by
        rw [← chainPairs_map_fst record.get_uri rest (bn + 1)]
        exact List.mem_map_of_mem Prod.fst h
      obtain ⟨j, hj, _, _⟩ := mem_bnodesFrom hm
      exact ⟨j, hj⟩
  · simp only [List.map_cons, chainPairs_map_fst]
    refine List.Nodup.cons ?_ (bnodesFrom_nodup _ _)
    intro hmem'
    obtain ⟨j, hj, hk, _⟩ := mem_bnodesFrom hmem'
    cases hj
    omega

/-- Witness for C1: the concrete record with components
`["X", "Y", "Z"]`. -/
theorem C1_component_chain_witness :
    ∃ pairs : List (Node × Node),
      (Node.uri (exRecord.uri.getD ""), Pred.mads_componentList, Node.bnode 0)
          ∈ (add_record_to_graph [] exRecord exOptions 0).1
      ∧ chainNodes (add_record_to_graph [] exRecord exOptions 0).1
          ("X" :: ["Y", "Z"]).length (Node.bnode 0) = some pairs
      ∧ pairs.length = ("X" :: ["Y", "Z"]).length
      ∧ pairs.map (fun p => nodeValue p.2)
          = ("X" :: ["Y", "Z"]).map (fun comp => some (exRecord.get_uri comp))
      ∧ (∀ p ∈ pairs, ∃ j, p.1 = Node.bnode j)
      ∧ (pairs.map Prod.fst).Nodup :=
  C1_component_chain exRecord exOptions 0 "X" ["Y", "Z"] rfl rfl

/-- C9: for every record with include-components set and at least two
components, the head list node's `first` object is a `URIRef` node while
every subsequent node's `first` object is the raw string returned by
`record.get_uri` (not wrapped as a URI reference), so the node type of
component objects differs between the first and all later chain
positions. -/
theorem C9_head_uriref_tail_rawstring (record : ClassificationRecord)
    (options : Options) (bn : Nat) (c0 c1 : String) (rest : List String)
    (hopt : options.include_components = true)
    (hcomp : record.components = c0 :: c1 :: rest) :
    ∃ pairs : List (Node × Node),
      chainNodes (add_record_to_graph [] record options bn).1
          (c0 :: c1 :: rest).length (Node.bnode bn) = some pairs
      ∧ pairs.map Prod.snd
          = Node.uri (record.get_uri c0)
            :: (c1 :: rest).map (fun comp => Node.pystr (record.get_uri comp))
      ∧ isUriRef (Node.uri (record.get_uri c0)) = true
      ∧ ∀ comp ∈ c1 :: rest, isUriRef (Node.pystr (record.get_uri comp)) = false := by
  obtain ⟨_, htrav⟩ := add_chain record options bn c0 (c1 :: rest) hopt hcomp
  refine ⟨(Node.bnode bn, Node.uri (record.get_uri c0)) ::
      chainPairs record.get_uri (c1 :: rest) (bn + 1), ?_, ?_, rfl, ?_⟩
  · simpa [List.length_cons] using htrav
  · simp only [List.map_cons, chainPairs_map_snd]
  · intro comp _
    rfl

/-- Witness for C9: the concrete record with components
`["X", "Y", "Z"]`. -/
theorem C9_head_uriref_tail_rawstring_witness :
    ∃ pairs : List (Node × Node),
      chainNodes (add_record_to_graph [] exRecord exOptions 0).1
          ("X" :: "Y" :: ["Z"]).length (Node.bnode 0) = some pairs
      ∧ pairs.map Prod.snd
          = Node.uri (exRecord.get_uri "X")
            :: ("Y" :: ["Z"]).map (fun comp => Node.pystr (exRecord.get_uri comp))
      ∧ isUriRef (Node.uri (exRecord.get_uri "X")) = true
      ∧ ∀ comp ∈ "Y" :: ["Z"], isUriRef (Node.pystr (exRecord.get_uri comp)) = false :=
  C9_head_uriref_tail_rawstring exRecord exOptions 0 "X" "Y" ["Z"] rfl rfl

/-- C3 counterexample: `add_record_to_graph` is not a pure function of
the record — with the components flag set, the record's `components`
field is mutated (`pop(0)`), so after the call it differs from its value
before the call. -/
theorem C3_counterexample :
    (add_record_to_graph [] exRecord exOptions 0).2.1.components
      ≠ exRecord.components := by
  decide

/-- C3 amended: the only graph effect of `add_record_to_graph` is appending
statements (the result graph is the input graph followed by statements
independent of it), and the record is returned unchanged *except* that
`components` loses its first element (the `pop(0)` at source line 107)
when the components flag is set and the list is non-empty; otherwise the
record is returned unchanged. -/
theorem C3_append_only_and_components_pop (graph : Graph)
    (record : ClassificationRecord) (options : Options) (bn : Nat) :
    (add_record_to_graph graph record options bn).1
        = graph ++ (add_record_to_graph [] record options bn).1
    ∧ ((options.include_components = true ∧ record.components ≠ []) →
        (add_record_to_graph graph record options bn).2.1
          = { record with components := record.components.tail })
    ∧ (¬(options.include_components = true ∧ record.components ≠ []) →
        (add_record_to_graph graph record options bn).2.1 = record) := by
  refine ⟨?_, ?_, ?_⟩
  · simp [add_record_to_graph, List.append_assoc]
  · rintro ⟨h1, h2⟩
    obtain ⟨c, rest, hcomp⟩ := List.exists_cons_of_ne_nil h2
    simp [add_record_to_graph, componentStatements, hcomp, h1]
  · intro h
    cases hopt : options.include_components with
    | false => simp [add_record_to_graph, componentStatements, hopt]
    | true =>
      have hcomp : record.components = [] := by
        by_contra hne
        exact h ⟨hopt, hne⟩
      simp [add_record_to_graph, componentStatements, hcomp]

/-- Witness for C3 amended: the pop branch at the concrete record. -/
theorem C3_append_only_and_components_pop_witness :
    (add_record_to_graph [] exRecord exOptions 0).2.1
      = { exRecord with components := exRecord.components.tail } :=
  (C3_append_only_and_components_pop [] exRecord exOptions 0).2.1
    ⟨rfl, by decide⟩

/-- C4: for every record with a resolvable identifier, exactly one
`rdf:type skos:Concept` statement is produced, and exactly one
scheme-membership statement per entry of `scheme_uris`, using
`skos:topConceptOf` when the record is a top concept and `skos:inScheme`
otherwise. -/
theorem C4_type_and_scheme_membership (record : ClassificationRecord)
    (options : Options) (bn : Nat) (u : String) (h : record.uri = some u) :
    (add_record_to_graph [] record options bn).1.filter
        (fun t => decide (t.2.1 = Pred.rdf_type))
      = [(Node.uri u, Pred.rdf_type, skosConcept)]
    ∧ (add_record_to_graph [] record options bn).1.filter
        (fun t => decide (t.2.1 = Pred.skos_topConceptOf ∨ t.2.1 = Pred.skos_inScheme))
      = record.scheme_uris.map (fun scheme_uri =>
          (Node.uri u,
            if record.is_top_concept then Pred.skos_topConceptOf else Pred.skos_inScheme,
            Node.uri scheme_uri)) := by
  have hru : Node.uri (record.uri.getD "") = Node.uri u := by rw [h]; rfl
  have hsplit := add_record_split record options bn
  rw [hru] at hsplit
  constructor
  · have t2 : (schemeStatements (Node.uri u) record).filter
        (fun t => decide (t.2.1 = Pred.rdf_type)) = [] :=
      filter_stmt_nil (fun t ht => by
        rcases schemeStatements_pred _ record t ht with hh | hh <;> simp [hh])
    have t3 : (createdStatements (Node.uri u) record).filter
        (fun t => decide (t.2.1 = Pred.rdf_type)) = [] :=
      filter_stmt_nil (fun t ht => by simp [createdStatements_pred _ record t ht])
    have t4 : (modifiedStatements (Node.uri u) record).filter
        (fun t => decide (t.2.1 = Pred.rdf_type)) = [] :=
      filter_stmt_nil (fun t ht => by simp [modifiedStatements_pred _ record t ht])
    have t5 : (notationStatements (Node.uri u) record).filter
        (fun t => decide (t.2.1 = Pred.rdf_type)) = [] :=
      filter_stmt_nil (fun t ht => by simp [notationStatements_pred _ record t ht])
    have t6 : (prefLabelStatements (Node.uri u) record).filter
        (fun t => decide (t.2.1 = Pred.rdf_type)) = [] :=
      filter_stmt_nil (fun t ht => by simp [prefLabelStatements_pred _ record t ht])
    have t7 : (indexTermStatements (Node.uri u) record options).filter
        (fun t => decide (t.2.1 = Pred.rdf_type)) = [] :=
      filter_stmt_nil (fun t ht => by simp [indexTermStatements_pred _ record options t ht])
    have t8 : (broaderStatements (Node.uri u) record).filter
        (fun t => decide (t.2.1 = Pred.rdf_type)) = [] :=
      filter_stmt_nil (fun t ht => by simp [broaderStatements_pred _ record t ht])
    have t9 : (noteStatements (Node.uri u) record options).filter
        (fun t => decide (t.2.1 = Pred.rdf_type)) = [] :=
      filter_stmt_nil (fun t ht => by
        rcases noteStatements_pred _ record options t ht with hh | hh | hh | hh <;> simp [hh])
    have t10 : (deprecatedStatements (Node.uri u) record).filter
        (fun t => decide (t.2.1 = Pred.rdf_type)) = [] :=
      filter_stmt_nil (fun t ht => by simp [deprecatedStatements_pred _ record t ht])
    have t11 : (componentStatements (Node.uri u) record options bn).1.filter
        (fun t => decide (t.2.1 = Pred.rdf_type)) = [] :=
      filter_stmt_nil (fun t ht => by
        rcases componentStatements_pred _ record options bn t ht with hh | hh | hh <;> simp [hh])
    have t12 : (webDeweyStatements (Node.uri u) record).filter
        (fun t => decide (t.2.1 = Pred.rdf_type)) = [] :=
      filter_stmt_nil (fun t ht => by
        obtain ⟨k, hk⟩ := webDeweyStatements_pred _ record t ht
        simp [hk])
    rw [hsplit]
    simp only [preChainStatements, List.filter_append, t2, t3, t4, t5, t6, t7, t8, t9,
      t10, t11, t12]
    simp [typeStatements]
  · have m1 : (typeStatements (Node.uri u)).filter
        (fun t => decide (t.2.1 = Pred.skos_topConceptOf ∨ t.2.1 = Pred.skos_inScheme)) = [] :=
      filter_stmt_nil (fun t ht => by simp [typeStatements_pred _ t ht])
    have m2 : (schemeStatements (Node.uri u) record).filter
        (fun t => decide (t.2.1 = Pred.skos_topConceptOf ∨ t.2.1 = Pred.skos_inScheme))
        = schemeStatements (Node.uri u) record :=
      filter_stmt_all (fun t ht => by
        rcases schemeStatements_pred _ record t ht with hh | hh <;> simp [hh])
    have m3 : (createdStatements (Node.uri u) record).filter
        (fun t => decide (t.2.1 = Pred.skos_topConceptOf ∨ t.2.1 = Pred.skos_inScheme)) = [] :=
      filter_stmt_nil (fun t ht => by simp [createdStatements_pred _ record t ht])
    have m4 : (modifiedStatements (Node.uri u) record).filter
        (fun t => decide (t.2.1 = Pred.skos_topConceptOf ∨ t.2.1 = Pred.skos_inScheme)) = [] :=
      filter_stmt_nil (fun t ht => by simp [modifiedStatements_pred _ record t ht])
    have m5 : (notationStatements (Node.uri u) record).filter
        (fun t => decide (t.2.1 = Pred.skos_topConceptOf ∨ t.2.1 = Pred.skos_inScheme)) = [] :=
      filter_stmt_nil (fun t ht => by simp [notationStatements_pred _ record t ht])
    have m6 : (prefLabelStatements (Node.uri u) record).filter
        (fun t => decide (t.2.1 = Pred.skos_topConceptOf ∨ t.2.1 = Pred.skos_inScheme)) = [] :=
      filter_stmt_nil (fun t ht => by simp [prefLabelStatements_pred _ record t ht])
    have m7 : (indexTermStatements (Node.uri u) record options).filter
        (fun t => decide (t.2.1 = Pred.skos_topConceptOf ∨ t.2.1 = Pred.skos_inScheme)) = [] :=
      filter_stmt_nil (fun t ht => by simp [indexTermStatements_pred _ record options t ht])
    have m8 : (broaderStatements (Node.uri u) record).filter
        (fun t => decide (t.2.1 = Pred.skos_topConceptOf ∨ t.2.1 = Pred.skos_inScheme)) = [] :=
      filter_stmt_nil (fun t ht => by simp [broaderStatements_pred _ record t ht])
    have m9 : (noteStatements (Node.uri u) record options).filter
        (fun t => decide (t.2.1 = Pred.skos_topConceptOf ∨ t.2.1 = Pred.skos_inScheme)) = [] :=
      filter_stmt_nil (fun t ht => by
        rcases noteStatements_pred _ record options t ht with hh | hh | hh | hh <;> simp [hh])
    have m10 : (deprecatedStatements (Node.uri u) record).filter
        (fun t => decide (t.2.1 = Pred.skos_topConceptOf ∨ t.2.1 = Pred.skos_inScheme)) = [] :=
      filter_stmt_nil (fun t ht => by simp [deprecatedStatements_pred _ record t ht])
    have m11 : (componentStatements (Node.uri u) record options bn).1.filter
        (fun t => decide (t.2.1 = Pred.skos_topConceptOf ∨ t.2.1 = Pred.skos_inScheme)) = [] :=
      filter_stmt_nil (fun t ht => by
        rcases componentStatements_pred _ record options bn t ht with hh | hh | hh <;> simp [hh])
    have m12 : (webDeweyStatements (Node.uri u) record).filter
        (fun t => decide (t.2.1 = Pred.skos_topConceptOf ∨ t.2.1 = Pred.skos_inScheme)) = [] :=
      filter_stmt_nil (fun t ht => by
        obtain ⟨k, hk⟩ := webDeweyStatements_pred _ record t ht
        simp [hk])
    rw [hsplit]
    simp only [preChainStatements, List.filter_append, m1, m2, m3, m4, m5, m6, m7, m8,
      m9, m10, m11, m12]
    cases htop : record.is_top_concept <;> simp [schemeStatements, htop]

/-- Witness for C4 at the concrete record. -/
theorem C4_type_and_scheme_membership_witness :
    (add_record_to_graph [] exRecord exOptions 0).1.filter
        (fun t => decide (t.2.1 = Pred.rdf_type))
      = [(Node.uri "http://dewey.info/class/512/e23/", Pred.rdf_type, skosConcept)]
    ∧ (add_record_to_graph [] exRecord exOptions 0).1.filter
        (fun t => decide (t.2.1 = Pred.skos_topConceptOf ∨ t.2.1 = Pred.skos_inScheme))
      = exRecord.scheme_uris.map (fun scheme_uri =>
          (Node.uri "http://dewey.info/class/512/e23/",
            if exRecord.is_top_concept then Pred.skos_topConceptOf else Pred.skos_inScheme,
            Node.uri scheme_uri)) :=
  C4_type_and_scheme_membership exRecord exOptions 0
    "http://dewey.info/class/512/e23/" rfl

/-- C5 counterexample: a table record whose notation is present
(non-absent) but empty produces *no* notation statement at all, because
the source guards on Python truthiness (`if record.notation:`), so the
claim "for every record with a non-absent notation the emitted notation
literal is ..." fails at this record. -/
theorem C5_counterexample :
    emptyNotationRecord.notationValue = some ""
    ∧ emptyNotationRecord.record_type = RecordType.table
    ∧ (add_record_to_graph [] emptyNotationRecord exOptions 0).1.filter
        (fun t => decide (t.2.1 = Pred.skos_notationProp)) = [] := by
  refine ⟨rfl, rfl, ?_⟩
  decide

/-- C5 amended: for every record with a non-absent *and non-empty*
notation, exactly one notation literal is emitted by the graph builder:
"T" prepended to the raw notation exactly when the record is a table
record, and the raw notation unchanged otherwise. -/
theorem C5_notation_prefixed (record : ClassificationRecord) (options : Options)
    (bn : Nat) (s : String)
    (h1 : record.notationValue = some s) (h2 : s ≠ "") :
    (add_record_to_graph [] record options bn).1.filter
        (fun t => decide (t.2.1 = Pred.skos_notationProp))
      = [(Node.uri (record.uri.getD ""), Pred.skos_notationProp,
          Node.literal (if record.record_type = RecordType.table then "T" ++ s else s)
            none none)] := by
  have hsplit := add_record_split record options bn
  have n1 : (typeStatements (Node.uri (record.uri.getD ""))).filter
      (fun t => decide (t.2.1 = Pred.skos_notationProp)) = [] :=
    filter_stmt_nil (fun t ht => by simp [typeStatements_pred _ t ht])
  have n2 : (schemeStatements (Node.uri (record.uri.getD "")) record).filter
      (fun t => decide (t.2.1 = Pred.skos_notationProp)) = [] :=
    filter_stmt_nil (fun t ht => by
      rcases schemeStatements_pred _ record t ht with hh | hh <;> simp [hh])
  have n3 : (createdStatements (Node.uri (record.uri.getD "")) record).filter
      (fun t => decide (t.2.1 = Pred.skos_notationProp)) = [] :=
    filter_stmt_nil (fun t ht => by simp [createdStatements_pred _ record t ht])
  have n4 : (modifiedStatements (Node.uri (record.uri.getD "")) record).filter
      (fun t => decide (t.2.1 = Pred.skos_notationProp)) = [] :=
    filter_stmt_nil (fun t ht => by simp [modifiedStatements_pred _ record t ht])
  have n5 : (notationStatements (Node.uri (record.uri.getD "")) record).filter
      (fun t => decide (t.2.1 = Pred.skos_notationProp))
      = [(Node.uri (record.uri.getD ""), Pred.skos_notationProp,
          Node.literal (if record.record_type = RecordType.table then "T" ++ s else s)
            none none)] := by
    have htr : pyTruthy record.notationValue = true := by
      rw [h1]
      simp [pyTruthy, h2]
    unfold notationStatements
    rw [if_pos htr]
    by_cases ht : record.record_type = RecordType.table
    · rw [if_pos ht, if_pos ht]
      simp [h1]
    · rw [if_neg ht, if_neg ht]
      simp [h1]
  have n6 : (prefLabelStatements (Node.uri (record.uri.getD "")) record).filter
      (fun t => decide (t.2.1 = Pred.skos_notationProp)) = [] :=
    filter_stmt_nil (fun t ht => by simp [prefLabelStatements_pred _ record t ht])
  have n7 : (indexTermStatements (Node.uri (record.uri.getD "")) record options).filter
      (fun t => decide (t.2.1 = Pred.skos_notationProp)) = [] :=
    filter_stmt_nil (fun t ht => by simp [indexTermStatements_pred _ record options t ht])
  have n8 : (broaderStatements (Node.uri (record.uri.getD "")) record).filter
      (fun t => decide (t.2.1 = Pred.skos_notationProp)) = [] :=
    filter_stmt_nil (fun t ht => by simp [broaderStatements_pred _ record t ht])
  have n9 : (noteStatements (Node.uri (record.uri.getD "")) record options).filter
      (fun t => decide (t.2.1 = Pred.skos_notationProp)) = [] :=
    filter_stmt_nil (fun t ht => by
      rcases noteStatements_pred _ record options t ht with hh | hh | hh | hh <;> simp [hh])
  have n10 : (deprecatedStatements (Node.uri (record.uri.getD "")) record).filter
      (fun t => decide (t.2.1 = Pred.skos_notationProp)) = [] :=
    filter_stmt_nil (fun t ht => by simp [deprecatedStatements_pred _ record t ht])
  have n11 : (componentStatements (Node.uri (record.uri.getD "")) record options bn).1.filter
      (fun t => decide (t.2.1 = Pred.skos_notationProp)) = [] :=
    filter_stmt_nil (fun t ht => by
      rcases componentStatements_pred _ record options bn t ht with hh | hh | hh <;> simp [hh])
  have n12 : (webDeweyStatements (Node.uri (record.uri.getD "")) record).filter
      (fun t => decide (t.2.1 = Pred.skos_notationProp)) = [] :=
    filter_stmt_nil (fun t ht => by
      obtain ⟨k, hk⟩ := webDeweyStatements_pred _ record t ht
      simp [hk])
  rw [hsplit]
  simp only [preChainStatements, List.filter_append, n1, n2, n3, n4, n5, n6, n7, n8, n9,
    n10, n11, n12]
  simp

/-- Witness for C5 amended: the concrete table record with notation
`"512"` gets the literal `"T512"`. -/
theorem C5_notation_prefixed_witness :
    (add_record_to_graph [] tableRecord exOptions 0).1.filter
        (fun t => decide (t.2.1 = Pred.skos_notationProp))
      = [(Node.uri (tableRecord.uri.getD ""), Pred.skos_notationProp,
          Node.literal
            (if tableRecord.record_type = RecordType.table then "T" ++ "512" else "512")
            none none)] :=
  C5_notation_prefixed tableRecord exOptions 0 "512" rfl (by decide)

/-- C2 (the code, evaluated at the failing input): a record whose leader
is present but shorter than 7 characters makes `process_record` raise
`IndexError` (from `leader[6]`), which is *not* an `InvalidRecordError`
and therefore escapes the per-record `try/except` of `main`, terminating
the run — contrary to the claim that a too-short leader is an
invalid-record condition that is caught so that processing continues. -/
theorem C2_short_leader_terminates_run :
    process_record [] shortLeaderRecord exOptions 0 = Except.error PyError.indexError
    ∧ mainLoop exOptions [shortLeaderRecord] [] 0
        = Except.error PyError.indexError := ⟨rfl, rfl⟩

/-- C6: a record that passes the leader checks but has no resolved URI
contributes zero graph statements (the graph is returned untouched),
the skip is logged at debug level, and no error is raised — regardless
of the other fields of the record. -/
theorem C6_unresolved_uri_skipped (graph : Graph) (rec : ClassificationRecord)
    (options : Options) (bn : Nat) (l : String)
    (hl : rec.leader = some l) (h6 : l.data[6]? = some 'w')
    (hu : rec.uri = none) :
    process_record graph rec options bn
      = Except.ok (graph, bn,
          [⟨LogLevel.debug,
            "Ignoring record because: No known concept scheme detected, and no manual URI template given"⟩]) := by
  simp [process_record, hl, h6, hu]

/-- Witness for C6: a concrete record with a valid leader and no URI. -/
theorem C6_unresolved_uri_skipped_witness :
    process_record [] noUriRecord exOptions 0
      = Except.ok ([], 0,
          [⟨LogLevel.debug,
            "Ignoring record because: No known concept scheme detected, and no manual URI template given"⟩]) :=
  C6_unresolved_uri_skipped [] noUriRecord exOptions 0
    "00000nw  a2200000n  4500" rfl rfl rfl

/-- C7: if the accumulated graph is empty after processing all records,
the output phase only emits the warning — no output file is opened, no
formatter (turtle serializer, jskos document write, or ndjson line
write) is ever invoked, and the run returns normally. -/
theorem C7_empty_graph_warns_only (args : Args) (jskos : JValue) :
    mainOutput [] args jskos = [Action.logWarn "RDF result is empty!"]
    ∧ (∀ f, Action.openOutFile f ∉ mainOutput [] args jskos)
    ∧ Action.serializeTurtle ∉ mainOutput [] args jskos
    ∧ (∀ d, Action.writeDoc d ∉ mainOutput [] args jskos)
    ∧ (∀ s, Action.write s ∉ mainOutput [] args jskos) := by
  have hm : mainOutput [] args jskos = [Action.logWarn "RDF result is empty!"] := by
    simp [mainOutput]
  refine ⟨hm, ?_, ?_, ?_, ?_⟩ <;> simp [hm]

/-- C8: the turtle subject-ordering key function sends every string
matched by the table-number pattern to a key prefixed "T" and every
string matched (only) by the plain schedule-number pattern to a key
prefixed "A"; in particular a subject whose notation segment is
`"512"` gets key `"A512"` and one whose notation segment is `"512--1"`
gets key `"T512--1"`, so table entries sort as a block distinct from
schedule entries (the key is a function of the input, hence
deterministic). -/
theorem C8_turtle_sort_key :
    (∀ (s : String) (g1 g2 : List Char),
        searchPattern1 s.data = some (g1, g2) →
        sortKeyFor s = some ("T" ++ String.mk g1 ++ "--" ++ String.mk g2))
    ∧ (∀ (s : String) (g1 : List Char),
        searchPattern1 s.data = none → searchPattern2 s.data = some g1 →
        sortKeyFor s = some ("A" ++ String.mk g1))
    ∧ sortKeyFor "http://dewey.info/class/512/e23/" = some "A512"
    ∧ sortKeyFor "http://dewey.info/class/512--1/e23/" = some "T512--1" := by
  refine ⟨?_, ?_, ?_, ?_⟩
  · intro s g1 g2 h
    simp [sortKeyFor, h]
  · intro s g1 h1 h2
    simp [sortKeyFor, h1, h2]
  · rfl
  · rfl

/-- Witness for C8: the table pattern match on the concrete table-form
subject. -/
theorem C8_turtle_sort_key_witness :
    sortKeyFor "http://dewey.info/class/512--1/e23/"
      = some ("T" ++ String.mk ['5', '1', '2'] ++ "--" ++ String.mk ['1']) :=
  C8_turtle_sort_key.1 "http://dewey.info/class/512--1/e23/" ['5', '1', '2'] ['1'] rfl

/-- C10: in ndjson mode, when the transformed document has a top-level
`@graph` array each entry is written as its own compact JSON line with
the published context URI injected into that entry individually, and
when there is no `@graph` key the whole document is written as a single
such line; a non-empty entry list therefore always produces output. -/
theorem C10_ndjson_lines (jskos : JValue) (entries : List JValue)
    (h : getKey jskos "@graph" = some (JValue.arr entries)
        ∨ (getKey jskos "@graph" = none ∧ entries = [jskos])) :
    ndjsonWrites jskos
      = entries.flatMap (fun record =>
          [Action.write (dumps (setContext record)), Action.write "\n"])
    ∧ (entries ≠ [] → ndjsonWrites jskos ≠ []) := by
  have hrecs : ndjsonRecords jskos = entries := by
    rcases h with h | ⟨h, rfl⟩
    · simp [ndjsonRecords, h]
    · simp [ndjsonRecords, h]
  have heq : ndjsonWrites jskos
      = entries.flatMap (fun record =>
          [Action.write (dumps (setContext record)), Action.write "\n"]) := by
    simp [ndjsonWrites, hrecs]
  refine ⟨heq, ?_⟩
  intro hne
  rw [heq]
  cases entries with
  | nil => exact absurd rfl hne
  | cons e es => simp

/-- Witness for C10: a concrete document with a one-entry `@graph`. -/
theorem C10_ndjson_lines_witness :
    ndjsonWrites exJskos
      = [JValue.obj [("uri", JValue.str "http://dewey.info/class/512/e23/")]].flatMap
          (fun record =>
            [Action.write (dumps (setContext record)), Action.write "\n"])
    ∧ ([JValue.obj [("uri", JValue.str "http://dewey.info/class/512/e23/")]]
          ≠ ([] : List JValue) → ndjsonWrites exJskos ≠ []) :=
  C10_ndjson_lines exJskos
    [JValue.obj [("uri", JValue.str "http://dewey.info/class/512/e23/")]]
    (Or.inl rfl)

end Mc2skos
